import Mathlib

/-!
Verification development for the speechbox preprocessing pipeline
(speechbox/preprocess/transformations.py and speechbox/commands/e2e.py).

Numpy arrays are modelled by their shape together with the flat row-major
buffer (a structure invariant ties the buffer length to the shape), which is
exactly the representation `ndarray.resize` operates on.  Sample values are
modelled as integers and float32 one-hot entries as rationals; both are exact
for the values the code produces (0.0 and 1.0).  The expression
`int(rate * length_ms * 1e-3)` is modelled as natural floor division
`rate * length_ms / 1000`, which is the exact integer value of the intended
real computation.
-/

/-- A 2-D numpy array: shape `(rows, cols)` plus the row-major flat buffer. -/
structure Mat2 where
  rows : ℕ
  cols : ℕ
  flat : List ℤ
  hsize : flat.length = rows * cols

/-- A 3-D numpy array: shape `(dim0, dim1, dim2)` plus the row-major flat buffer. -/
structure Mat3 where
  dim0 : ℕ
  dim1 : ℕ
  dim2 : ℕ
  flat : List ℤ
  hsize : flat.length = dim0 * (dim1 * dim2)

/-- Semantics of `ndarray.resize(newshape)` on the flat buffer: keep the first
`newLen` entries of the old buffer and zero-fill the rest. -/
def ndarrayResize (newLen : ℕ) (flat : List ℤ) : List ℤ :=
  flat.take newLen ++ List.replicate (newLen - flat.length) 0

/-- Model of `partition_into_sequences(data, sequence_length)` from
speechbox/preprocess/transformations.py: computes
`num_sequences = (data.shape[0] + sequence_length - 1) // sequence_length`,
copies `data` and resizes the copy to
`(num_sequences, sequence_length, data.shape[1])` in place
(zero padding the flat buffer). -/
def partition_into_sequences (data : Mat2) (sequence_length : ℕ) : Mat3 :=
  let num_sequences := (data.rows + sequence_length - 1) / sequence_length
  { dim0 := num_sequences
    dim1 := sequence_length
    dim2 := data.cols
    flat := ndarrayResize (num_sequences * (sequence_length * data.cols)) data.flat
    hsize := by simp [ndarrayResize]; omega }

/-- An audio file as loaded by `system.read_wavfile`: the sample values and
the native sample rate. -/
structure WavFile where
  samples : List ℤ
  rate : ℕ

/-- Model of `int(rate * ms * 1e-3)`, the number of samples in `ms` milliseconds at
sample rate `rate`, modelled by exact natural floor division. -/
def utteranceBoundary (rate ms : ℕ) : ℕ :=
  rate * ms / 1000

/-- The while loop of `speech_dataset_to_utterances`:
`while wav.size > utterance_boundary: yield wav[:utterance_boundary]; wav = wav[utterance_offset:]`.
Structural recursion on a fuel argument; `wav.length` fuel suffices whenever
the offset is positive, which the assertions in the source guarantee before
the loop runs.  Returns the yielded utterances and the leftover signal. -/
def sliceUtterancesAux : ℕ → ℕ → ℕ → List ℤ → List (List ℤ) × List ℤ
  | 0, _, _, wav => ([], wav)
  | fuel + 1, b, o, wav =>
    if b < wav.length then
      let r := sliceUtterancesAux fuel b o (wav.drop o)
      (wav.take b :: r.1, r.2)
    else
      ([], wav)

def sliceUtterances (b o : ℕ) (wav : List ℤ) : List (List ℤ) × List ℤ :=
  sliceUtterancesAux wav.length b o wav

/-- One yielded element of `speech_dataset_to_utterances`:
`label, (wav[:utterance_boundary], rate)`. -/
abbrev Utt := String × List ℤ × ℕ

/-- The body of the `for` loop of `speech_dataset_to_utterances` for one
`(label, wavpath)` pair: read the file, optionally apply voice activity
detection, prepend the per-label carry when `slide_over_all`, check the two
assertions on the boundary and the offset, run the while loop and update the
carry.  The third component records whether an `AssertionError` was raised
(in which case nothing is yielded from this file and the carry is left as it
was at the moment of the error). -/
def processOneFile (ulenMs uoffMs : ℕ) (applyVad : Bool) (vad : List ℤ → List ℤ)
    (slideOverAll : Bool) (carry : String → List ℤ) (label : String) (f : WavFile) :
    List Utt × (String → List ℤ) × Bool :=
  let wav0 := if applyVad then vad f.samples else f.samples
  let wav1 := if slideOverAll then carry label ++ wav0 else wav0
  let b := utteranceBoundary f.rate ulenMs
  let o := utteranceBoundary f.rate uoffMs
  if b = 0 ∨ o = 0 then
    ([], carry, true)
  else
    let r := sliceUtterances b o wav1
    let carry2 := fun l => if l = label then (if slideOverAll then r.2 else []) else carry l
    (r.1.map (fun u => (label, u, f.rate)), carry2, false)

/-- The `for` loop of `speech_dataset_to_utterances` over all
`(label, wavpath)` pairs, threading the per-label carry and stopping at the
first `AssertionError`. -/
def speechDatasetRun (ulenMs uoffMs : ℕ) (applyVad : Bool) (vad : List ℤ → List ℤ)
    (slideOverAll : Bool) (carry : String → List ℤ) :
    List (String × WavFile) → List Utt × (String → List ℤ) × Bool
  | [] => ([], carry, false)
  | (label, f) :: rest =>
    let r := processOneFile ulenMs uoffMs applyVad vad slideOverAll carry label f
    if r.2.2 then
      (r.1, r.2.1, true)
    else
      let rr := speechDatasetRun ulenMs uoffMs applyVad vad slideOverAll r.2.1 rest
      (r.1 ++ rr.1, rr.2.1, rr.2.2)

/-- Model of `speech_dataset_to_utterances(labels, paths, ...)` from
speechbox/preprocess/transformations.py.  The working memory
`label_to_wav` starts as an empty array for every label; files stand for the
wav data `system.read_wavfile` returns for each path, and voice activity
detection (`system.remove_silence`, outside this tree) is an abstract
parameter.  Returns the yielded `(label, (utterance, rate))` stream, the
final working memory, and whether an `AssertionError` was raised. -/
def speech_dataset_to_utterances (labels : List String) (paths : List WavFile)
    (ulenMs uoffMs : ℕ) (applyVad : Bool) (vad : List ℤ → List ℤ)
    (slideOverAll : Bool) : List Utt × (String → List ℤ) × Bool :=
  speechDatasetRun ulenMs uoffMs applyVad vad slideOverAll (fun _ => [])
    (labels.zip paths)

/-- Sum of squares of the entries, i.e. the squared Frobenius norm. -/
def sumSq (l : List ℤ) : ℤ :=
  (l.map (fun x => x * x)).sum

/-- Split a flat buffer into `k` consecutive chunks of `n` entries each. -/
def chunkN : ℕ → ℕ → List ℤ → List (List ℤ)
  | 0, _, _ => []
  | k + 1, n, l => l.take n :: chunkN k n (l.drop n)

/-- Iterating a 3-D numpy array over its first axis yields `dim0` matrices of
shape `(dim1, dim2)`, i.e. consecutive chunks of `dim1 * dim2` flat entries. -/
def Mat3.sequences (p : Mat3) : List (List ℤ) :=
  chunkN p.dim0 (p.dim1 * p.dim2) p.flat

/-- Model of `onehot = np.zeros(len(label_to_index), dtype=np.float32); onehot[idx] = 1.0`.
Float32 holds 0.0 and 1.0 exactly, so rationals model the entries exactly. -/
def makeOnehot (n idx : ℕ) : List ℚ :=
  (List.replicate n (0 : ℚ)).set idx 1

/-- Model of `utterances_to_features(utterances, label_to_index, extractors, sequence_length)`
from speechbox/preprocess/transformations.py.  Feature extraction
(`features.extract_features`, outside this tree) is an abstract function from
an utterance to a 2-D feature matrix; the code applies only `extractors[0]`.
The dict `label_to_index` is modelled by an index function together with its
size.  `none` models the `AssertionError` raised when no extractors are
defined. -/
def utterances_to_features (utterances : List Utt) (label_to_index : String → ℕ)
    (numLabels : ℕ) (extractors : List (List ℤ × ℕ → Mat2))
    (sequence_length : ℕ) : Option (List (List ℤ × List ℚ)) :=
  match extractors with
  | [] => none
  | extractor :: _ =>
    some (utterances.flatMap (fun u =>
      let onehot := makeOnehot numLabels (label_to_index u.1)
      let feats := extractor u.2
      let sequences := (partition_into_sequences feats sequence_length).sequences
      sequences.map (fun seq => (seq, onehot))))

/-- The formal parameters of `speech_dataset_to_utterances` in
speechbox/preprocess/transformations.py (line 31). -/
def speechDatasetToUtterancesParams : List String :=
  ["labels", "paths", "utterance_length_ms", "utterance_offset_ms",
   "apply_vad", "print_progress", "slide_over_all"]

/-- The keyword-argument names used by the call to
`speech_dataset_to_utterances` inside `files_to_features`
(speechbox/preprocess/transformations.py lines 87-94). -/
def filesToFeaturesCallKeywords : List String :=
  ["utterance_length_ms", "utterance_offset_ms", "apply_vad",
   "print_progress", "resample_to"]

/-- Python keyword-argument binding: a call succeeds only when every keyword
names a formal parameter of the callee; otherwise the call raises
`TypeError: got an unexpected keyword argument` at call time. -/
def keywordsAccepted (kwargs params : List String) : Bool :=
  kwargs.all (fun k => params.contains k)

/-- A value stored in the feature configuration dict of
speechbox/commands/e2e.py.  The sub-configurations (`mfcc`,
`melspectrogram`, `spectrogram`) hold integer-valued entries. -/
inductive FeatVal where
  | int : ℤ → FeatVal
  | str : String → FeatVal
  | subconfig : List (String × ℤ) → FeatVal
deriving DecidableEq

/-- Python exceptions that `patch_feature_dim` can raise. -/
inductive PyError where
  | typeError : String → PyError
  | keyError : String → PyError
  | assertionError : String → PyError
deriving DecidableEq

abbrev FeatConfig := List (String × FeatVal)

def lookupKey (cfg : FeatConfig) (k : String) : Option FeatVal :=
  (cfg.find? (fun e => e.1 == k)).map (fun e => e.2)

def subLookup (sub : List (String × ℤ)) (k : String) : Option ℤ :=
  (sub.find? (fun e => e.1 == k)).map (fun e => e.2)

/-- Assignment `config["feature_dim"] = v` on the dict model. -/
def setKey (cfg : FeatConfig) (k : String) (v : FeatVal) : FeatConfig :=
  (k, v) :: cfg.filter (fun e => e.1 ≠ k)

/-- Model of `patch_feature_dim(config)` from speechbox/commands/e2e.py (lines 49-60):
dispatch on `config["type"]`, setting `config["feature_dim"]` from the
matching sub-configuration.  The spectrogram branch computes
`config["spectrogram"] // 2 + 1` directly on the stored value, which is only
defined when that value is an integer; on a dict Python raises `TypeError`
(`//` is `Int.fdiv`, Python floor division). -/
def patch_feature_dim (config : FeatConfig) : Except PyError FeatConfig :=
  match lookupKey config "type" with
  | none => .error (.keyError "type")
  | some tv =>
    if tv = .str "mfcc" then
      match lookupKey config "mfcc" with
      | some (.subconfig sub) =>
        match subLookup sub "num_coefs" with
        | some v => .ok (setKey config "feature_dim" (.int v))
        | none => .error (.keyError "num_coefs")
      | some _ => .error (.typeError "value is not subscriptable")
      | none => .error (.keyError "mfcc")
    else if tv = .str "melspectrogram" ∨ tv = .str "logmelspectrogram" then
      match lookupKey config "melspectrogram" with
      | some (.subconfig sub) =>
        match subLookup sub "num_mel_bins" with
        | some v => .ok (setKey config "feature_dim" (.int v))
        | none => .error (.keyError "num_mel_bins")
      | some _ => .error (.typeError "value is not subscriptable")
      | none => .error (.keyError "melspectrogram")
    else if tv = .str "spectrogram" then
      match lookupKey config "spectrogram" with
      | some (.int v) => .ok (setKey config "feature_dim" (.int (Int.fdiv v 2 + 1)))
      | some _ => .error (.typeError "unsupported operand types for floor division")
      | none => .error (.keyError "spectrogram")
    else if tv = .str "sparsespeech" then
      match lookupKey config "feature_dim" with
      | some _ => .ok config
      | none => .error (.assertionError "feature dimensions must be specified explicitly")
    else
      .error (.assertionError "unknown feature type")

/-- The three lists returned by the dataset splitting functions. -/
structure DatasetSplit (α : Type) where
  training : List α
  validation : List α
  test : List α

/-- The documented contract of `sklearn.model_selection.train_test_split`
on one input list: it returns two lists that together are a permutation of
the input. -/
def TrainTestSplitSpec {α : Type} (tts : List α → List α × List α) : Prop :=
  ∀ l : List α, List.Perm ((tts l).1 ++ (tts l).2) l

/-- Model of `dataset_split_samples(samples, ...)` from
speechbox/preprocess/transformations.py: one `train_test_split` of the
samples into training and test, then a second `train_test_split` of the
training part into training and validation.  The two (randomised) library
calls are abstract function parameters. -/
def dataset_split_samples {α : Type} (tts1 tts2 : List α → List α × List α)
    (samples : List α) : DatasetSplit α :=
  let p1 := tts1 samples
  let p2 := tts2 p1.1
  ⟨p2.1, p2.2, p1.2⟩

/-- Model of `dataset_split_samples_by_speaker(samples, parse_speaker_id, ...)` from
speechbox/preprocess/transformations.py: collect the set of distinct speaker
ids, split the speakers twice with `train_test_split`, then place every
sample into the list of the speaker group its speaker id landed in. -/
def dataset_split_samples_by_speaker {α σ : Type} [DecidableEq σ]
    (tts1 tts2 : List σ → List σ × List σ) (parse_speaker_id : α → σ)
    (samples : List α) : DatasetSplit α :=
  let speakers := (samples.map parse_speaker_id).dedup
  let p1 := tts1 speakers
  let p2 := tts2 p1.1
  ⟨samples.filter (fun s => decide (parse_speaker_id s ∈ p2.1)),
   samples.filter (fun s => decide (parse_speaker_id s ∈ p2.2)),
   samples.filter (fun s => decide (parse_speaker_id s ∈ p1.2))⟩

/-- A concrete 2-column feature matrix used to exercise the definitions. -/
def matA : Mat2 :=
  ⟨2, 1, [3, 4], by decide⟩

/-- A concrete single-row feature matrix used to exercise the definitions. -/
def matB : Mat2 :=
  ⟨1, 1, [7], by decide⟩

/-- A concrete audio file used to exercise the definitions. -/
def wavA : WavFile :=
  ⟨[1, 2, 3, 4, 5], 1000⟩

/-- A concrete deterministic instance of the `train_test_split` contract:
first element versus the rest. -/
def takeSplit : List ℕ → List ℕ × List ℕ :=
  fun l => (l.take 1, l.drop 1)

theorem sumSq_append (a b : List ℤ) : sumSq (a ++ b) = sumSq a + sumSq b := by
  simp [sumSq]

theorem sumSq_replicate_zero (n : ℕ) : sumSq (List.replicate n 0) = 0 := by
  simp [sumSq]

/-- Ceiling division rounds up: `r ≤ ⌈r/L⌉ * L` for `L ≥ 1`. -/
theorem le_ceil_mul (r L : ℕ) (hL : 1 ≤ L) : r ≤ (r + L - 1) / L * L := by
  rcases Nat.eq_zero_or_pos r with hr | hr
  · simp [hr]
  · have hkey : (r + L - 1) / L = (r - 1) / L + 1 := by
      have hsum : r + L - 1 = (r - 1) + L := by omega
      rw [hsum, Nat.add_div_right _ hL]
    have hmod := Nat.div_add_mod (r - 1) L
    have hlt : (r - 1) % L < L := Nat.mod_lt _ hL
    rw [hkey, Nat.add_mul, Nat.one_mul]
    have hcomm : (r - 1) / L * L = L * ((r - 1) / L) := Nat.mul_comm _ _
    rw [hcomm]
    omega

/-- Claim C1: with `S = ⌈rows / L⌉` the result has shape `(S, L, cols)`, its
flat row-major buffer is the input buffer followed by zeros, and the sum of
squares (squared Frobenius norm) is preserved. -/
theorem partition_into_sequences_spec (data : Mat2) (L : ℕ) (hL : 1 ≤ L) :
    (partition_into_sequences data L).dim0 = (data.rows + L - 1) / L ∧
    (partition_into_sequences data L).dim1 = L ∧
    (partition_into_sequences data L).dim2 = data.cols ∧
    (partition_into_sequences data L).flat =
      data.flat ++
        List.replicate ((data.rows + L - 1) / L * (L * data.cols) - data.rows * data.cols) 0 ∧
    sumSq (partition_into_sequences data L).flat = sumSq data.flat := by
  have hrows : data.rows ≤ (data.rows + L - 1) / L * L := le_ceil_mul data.rows L hL
  have hlen : data.flat.length ≤ (data.rows + L - 1) / L * (L * data.cols) := by
    rw [data.hsize, ← Nat.mul_assoc]
    exact Nat.mul_le_mul_right data.cols hrows
  have hflat : (partition_into_sequences data L).flat =
      data.flat ++
        List.replicate ((data.rows + L - 1) / L * (L * data.cols) - data.rows * data.cols) 0 := by
    show ndarrayResize _ _ = _
    rw [ndarrayResize, List.take_of_length_le hlen, data.hsize]
  refine ⟨rfl, rfl, rfl, hflat, ?_⟩
  rw [hflat, sumSq_append, sumSq_replicate_zero, add_zero]

theorem sliceUtterancesAux_mem_length (b o : ℕ) :
    ∀ (fuel : ℕ) (wav : List ℤ), ∀ u ∈ (sliceUtterancesAux fuel b o wav).1, u.length = b := by
  intro fuel
  induction fuel with
  | zero =>
    intro wav u hu
    simp [sliceUtterancesAux] at hu
  | succ n ih =>
    intro wav u hu
    by_cases h : b < wav.length
    · simp [sliceUtterancesAux, h] at hu
      rcases hu with hu | hu
      · subst hu
        simp [List.length_take]
        omega
      · exact ih (wav.drop o) u hu
    · simp [sliceUtterancesAux, h] at hu

theorem sliceUtterances_mem_length (b o : ℕ) (wav : List ℤ) :
    ∀ u ∈ (sliceUtterances b o wav).1, u.length = b :=
  sliceUtterancesAux_mem_length b o wav.length wav

theorem sliceUtterancesAux_rest_length (b o : ℕ) (ho : 0 < o) :
    ∀ (fuel : ℕ) (wav : List ℤ), wav.length ≤ fuel →
      (sliceUtterancesAux fuel b o wav).2.length ≤ b := by
  intro fuel
  induction fuel with
  | zero =>
    intro wav hlen
    have hnil : wav = [] := List.eq_nil_of_length_eq_zero (Nat.le_zero.mp hlen)
    subst hnil
    simp [sliceUtterancesAux]
  | succ n ih =>
    intro wav hlen
    by_cases h : b < wav.length
    · have hrec := ih (wav.drop o) (by simp [List.length_drop]; omega)
      simp [sliceUtterancesAux, h]
      exact hrec
    · simp [sliceUtterancesAux, h]
      omega

theorem sliceUtterances_rest_length (b o : ℕ) (ho : 0 < o) (wav : List ℤ) :
    (sliceUtterances b o wav).2.length ≤ b :=
  sliceUtterancesAux_rest_length b o ho wav.length wav (le_refl _)

theorem sliceUtterancesAux_getElem (b o : ℕ) (ho : 0 < o) :
    ∀ (fuel : ℕ) (wav : List ℤ) (k : ℕ), wav.length ≤ fuel →
      (sliceUtterancesAux fuel b o wav).1[k]? =
        if b < (wav.drop (k * o)).length then some ((wav.drop (k * o)).take b)
        else none := by
  intro fuel
  induction fuel with
  | zero =>
    intro wav k hlen
    have hnil : wav = [] := List.eq_nil_of_length_eq_zero (Nat.le_zero.mp hlen)
    subst hnil
    simp [sliceUtterancesAux]
  | succ n ih =>
    intro wav k hlen
    by_cases h : b < wav.length
    · cases k with
      | zero =>
        simp [sliceUtterancesAux, h]
      | succ j =>
        have hrec := ih (wav.drop o) j (by simp [List.length_drop]; omega)
        have hdrop : (wav.drop o).drop (j * o) = wav.drop ((j + 1) * o) := by
          rw [List.drop_drop]
          congr 1
          ring
        simp only [sliceUtterancesAux, h, if_true]
        rw [List.getElem?_cons_succ, hrec, hdrop]
    · have hle : ¬ b < wav.length - k * o := by
        omega
      simp [sliceUtterancesAux, h, hle]

theorem speechDatasetRun_mem_length (ulenMs uoffMs : ℕ) (applyVad : Bool)
    (vad : List ℤ → List ℤ) (slideOverAll : Bool) :
    ∀ (files : List (String × WavFile)) (carry : String → List ℤ),
      ∀ x ∈ (speechDatasetRun ulenMs uoffMs applyVad vad slideOverAll carry files).1,
        x.2.1.length = utteranceBoundary x.2.2 ulenMs := by
  intro files
  induction files with
  | nil =>
    intro carry x hx
    simp [speechDatasetRun] at hx
  | cons lf rest ih =>
    intro carry x hx
    obtain ⟨label, f⟩ := lf
    by_cases herr : utteranceBoundary f.rate ulenMs = 0 ∨ utteranceBoundary f.rate uoffMs = 0
    · simp [speechDatasetRun, processOneFile, herr] at hx
    · simp [speechDatasetRun, processOneFile, herr] at hx
      rcases hx with ⟨u, hu, hux⟩ | hx
      · rw [← hux]
        exact sliceUtterances_mem_length _ _ _ u hu
      · exact ih _ x hx

/-- Claim C3: every utterance yielded by `speech_dataset_to_utterances` has
exactly `int(rate * utterance_length_ms * 1e-3)` samples, where `rate` is the
sample rate of the file being processed when the utterance is yielded. -/
theorem speech_utterance_lengths (labels : List String) (paths : List WavFile)
    (ulenMs uoffMs : ℕ) (applyVad : Bool) (vad : List ℤ → List ℤ)
    (slideOverAll : Bool) :
    ∀ x ∈ (speech_dataset_to_utterances labels paths ulenMs uoffMs applyVad vad
        slideOverAll).1,
      x.2.1.length = utteranceBoundary x.2.2 ulenMs :=
  speechDatasetRun_mem_length ulenMs uoffMs applyVad vad slideOverAll
    (labels.zip paths) (fun _ => [])

theorem speech_utterance_lengths_witness :
    (("a", (([1, 2] : List ℤ), 1000)) : Utt) ∈
      (speech_dataset_to_utterances ["a"] [wavA] 2 2 false id true).1 ∧
    ([1, 2] : List ℤ).length = utteranceBoundary 1000 2 :=
  ⟨by decide,
   speech_utterance_lengths ["a"] [wavA] 2 2 false id true ("a", ([1, 2], 1000))
     (by decide)⟩

/-- Claim C4: with `slide_over_all=False` and a single file, the utterances
yielded are exactly the windows `wav[k*o : k*o + b]` for `k = 0, 1, 2, ...`
with `b = int(rate*utterance_length_ms*1e-3)` and
`o = int(rate*utterance_offset_ms*1e-3)`, one for each `k` such that
`wav[k*o:]` still has strictly more than `b` samples; the final tail of at
most `b` samples is never yielded. -/
theorem speech_single_file_windows (label : String) (f : WavFile)
    (ulenMs uoffMs : ℕ) (vad : List ℤ → List ℤ) (k : ℕ)
    (hb : 0 < utteranceBoundary f.rate ulenMs)
    (ho : 0 < utteranceBoundary f.rate uoffMs) :
    (speech_dataset_to_utterances [label] [f] ulenMs uoffMs false vad false).1[k]? =
      if utteranceBoundary f.rate ulenMs <
          (f.samples.drop (k * utteranceBoundary f.rate uoffMs)).length then
        some (label,
          (f.samples.drop (k * utteranceBoundary f.rate uoffMs)).take
            (utteranceBoundary f.rate ulenMs),
          f.rate)
      else none := by
  have herr : ¬ (utteranceBoundary f.rate ulenMs = 0 ∨
      utteranceBoundary f.rate uoffMs = 0) := by
    omega
  have hslice := sliceUtterancesAux_getElem (utteranceBoundary f.rate ulenMs)
    (utteranceBoundary f.rate uoffMs) ho f.samples.length f.samples k (le_refl _)
  by_cases hc : utteranceBoundary f.rate ulenMs <
      (f.samples.drop (k * utteranceBoundary f.rate uoffMs)).length
  · simp [speech_dataset_to_utterances, speechDatasetRun, processOneFile, herr,
      sliceUtterances, hslice, hc]
  · simp [speech_dataset_to_utterances, speechDatasetRun, processOneFile, herr,
      sliceUtterances, hslice, hc]

theorem speech_single_file_windows_witness :
    0 < utteranceBoundary 1000 2 ∧
    (speech_dataset_to_utterances ["a"] [wavA] 2 2 false id false).1[0]? =
      (if utteranceBoundary 1000 2 <
          (wavA.samples.drop (0 * utteranceBoundary 1000 2)).length then
        some ("a",
          (wavA.samples.drop (0 * utteranceBoundary 1000 2)).take
            (utteranceBoundary 1000 2),
          wavA.rate)
      else none) :=
  ⟨by decide, speech_single_file_windows "a" wavA 2 2 id 0 (by decide) (by decide)⟩

/-- Claim C9: after one file is processed without an assertion error, the
per-label working memory holds at most one utterance boundary of samples for
that label when `slide_over_all` is true and is empty when it is false, other
labels are untouched, and when `slide_over_all` is true the file is processed
with the previous carry for its label prepended to its signal. -/
theorem processOneFile_carry (ulenMs uoffMs : ℕ) (applyVad : Bool)
    (vad : List ℤ → List ℤ) (slideOverAll : Bool) (carry : String → List ℤ)
    (label : String) (f : WavFile)
    (hb : 0 < utteranceBoundary f.rate ulenMs)
    (ho : 0 < utteranceBoundary f.rate uoffMs) :
    (processOneFile ulenMs uoffMs applyVad vad slideOverAll carry label f).2.2 = false ∧
    ((processOneFile ulenMs uoffMs applyVad vad slideOverAll carry label f).2.1
        label).length ≤
      (if slideOverAll then utteranceBoundary f.rate ulenMs else 0) ∧
    (∀ l, l ≠ label →
      (processOneFile ulenMs uoffMs applyVad vad slideOverAll carry label f).2.1 l =
        carry l) ∧
    (slideOverAll = true →
      (processOneFile ulenMs uoffMs applyVad vad slideOverAll carry label f).1 =
        (sliceUtterances (utteranceBoundary f.rate ulenMs)
            (utteranceBoundary f.rate uoffMs)
            (carry label ++ (if applyVad then vad f.samples else f.samples))).1.map
          (fun u => (label, u, f.rate))) := by
  have herr : ¬ (utteranceBoundary f.rate ulenMs = 0 ∨
      utteranceBoundary f.rate uoffMs = 0) := by
    omega
  refine ⟨?_, ?_, ?_, ?_⟩
  · simp [processOneFile, herr]
  · cases slideOverAll with
    | false => simp [processOneFile, herr]
    | true =>
      simp [processOneFile, herr]
      exact sliceUtterances_rest_length _ _ ho _
  · intro l hl
    simp [processOneFile, herr, hl]
  · intro hs
    subst hs
    simp [processOneFile, herr]

theorem processOneFile_carry_witness :
    (processOneFile 2 2 false id true (fun _ => []) "a" wavA).2.2 = false ∧
    ((processOneFile 2 2 false id true (fun _ => []) "a" wavA).2.1 "a").length ≤
      (if true then utteranceBoundary 1000 2 else 0) ∧
    (∀ l, l ≠ "a" →
      (processOneFile 2 2 false id true (fun _ => []) "a" wavA).2.1 l =
        (fun _ => ([] : List ℤ)) l) ∧
    (true = true →
      (processOneFile 2 2 false id true (fun _ => []) "a" wavA).1 =
        (sliceUtterances (utteranceBoundary 1000 2) (utteranceBoundary 1000 2)
            (((fun _ => ([] : List ℤ)) "a") ++
              (if false then id wavA.samples else wavA.samples))).1.map
          (fun u => ("a", u, wavA.rate))) :=
  processOneFile_carry 2 2 false id true (fun _ => []) "a" wavA (by decide) (by decide)

theorem speechDatasetRun_err_iff (ulenMs uoffMs : ℕ) (applyVad : Bool)
    (vad : List ℤ → List ℤ) (slideOverAll : Bool) :
    ∀ (files : List (String × WavFile)) (carry : String → List ℤ),
      (speechDatasetRun ulenMs uoffMs applyVad vad slideOverAll carry files).2.2 = true
      ↔ ∃ lf ∈ files, utteranceBoundary lf.2.rate ulenMs = 0 ∨
          utteranceBoundary lf.2.rate uoffMs = 0 := by
  intro files
  induction files with
  | nil =>
    intro carry
    simp [speechDatasetRun]
  | cons lf rest ih =>
    intro carry
    obtain ⟨label, f⟩ := lf
    by_cases herr : utteranceBoundary f.rate ulenMs = 0 ∨ utteranceBoundary f.rate uoffMs = 0
    · simp [speechDatasetRun, processOneFile, herr]
    · simp [speechDatasetRun, processOneFile, herr, ih]

/-- Claim C10: `speech_dataset_to_utterances` raises an `AssertionError` if
and only if some processed file has `int(rate * utterance_length_ms * 1e-3)`
or `int(rate * utterance_offset_ms * 1e-3)` equal to zero; when both values
are positive for every file, no assertion fires. -/
theorem speech_assert_iff (labels : List String) (paths : List WavFile)
    (ulenMs uoffMs : ℕ) (applyVad : Bool) (vad : List ℤ → List ℤ)
    (slideOverAll : Bool) :
    (speech_dataset_to_utterances labels paths ulenMs uoffMs applyVad vad
        slideOverAll).2.2 = true
    ↔ ∃ lf ∈ labels.zip paths, utteranceBoundary lf.2.rate ulenMs = 0 ∨
        utteranceBoundary lf.2.rate uoffMs = 0 :=
  speechDatasetRun_err_iff ulenMs uoffMs applyVad vad slideOverAll
    (labels.zip paths) (fun _ => [])

theorem partition_into_sequences_spec_witness :
    1 ≤ 2 ∧
    ((partition_into_sequences matA 2).dim0 = (matA.rows + 2 - 1) / 2 ∧
     (partition_into_sequences matA 2).dim1 = 2 ∧
     (partition_into_sequences matA 2).dim2 = matA.cols ∧
     (partition_into_sequences matA 2).flat =
       matA.flat ++
         List.replicate
           ((matA.rows + 2 - 1) / 2 * (2 * matA.cols) - matA.rows * matA.cols) 0 ∧
     sumSq (partition_into_sequences matA 2).flat = sumSq matA.flat) :=
  ⟨by decide, partition_into_sequences_spec matA 2 (by decide)⟩

/-- Claim C6 (evidence of the code bug): the call to
`speech_dataset_to_utterances` inside `files_to_features` passes the keyword
argument `resample_to`, which is not among the formal parameters of the
callee, so Python rejects the call with `TypeError` on the first iteration
and `files_to_features` never yields a feature triple. -/
theorem files_to_features_call_rejected :
    keywordsAccepted filesToFeaturesCallKeywords speechDatasetToUtterancesParams
      = false := by
  decide

/-- Claim C8 (evidence of the code bug): with feature type `spectrogram` and
the spectrogram sub-configuration present (a dict, exactly how the rest of
e2e.py reads `config["spectrogram"]`), `patch_feature_dim` applies floor
division to the dict itself and raises `TypeError` instead of setting
`feature_dim` to a positive integer. -/
theorem patch_feature_dim_spectrogram_fails :
    patch_feature_dim
      [("type", FeatVal.str "spectrogram"),
       ("spectrogram",
        FeatVal.subconfig [("frame_length", 400), ("frame_step", 160)])] =
    Except.error (PyError.typeError "unsupported operand types for floor division") := by
  rfl

theorem makeOnehot_length (n idx : ℕ) : (makeOnehot n idx).length = n := by
  simp [makeOnehot]

theorem makeOnehot_getElem_self (n idx : ℕ) (h : idx < n) :
    (makeOnehot n idx)[idx]? = some 1 := by
  rw [makeOnehot, List.getElem?_set_eq_of_lt]
  simpa using h

theorem makeOnehot_getElem_ne (n idx j : ℕ) (hj : j < n) (hne : j ≠ idx) :
    (makeOnehot n idx)[j]? = some 0 := by
  rw [makeOnehot, List.getElem?_set_ne (by omega : idx ≠ j)]
  simp [hj]

/-- Claim C7: when extractors are defined, every pair yielded by
`utterances_to_features` consists of one of the fixed-length chunks of the
partitioned feature matrix of some consumed utterance, together with a
one-hot vector of length `len(label_to_index)` that is 1.0 at the index of
the utterance label and 0.0 everywhere else. -/
theorem utterances_to_features_spec (utts : List Utt) (lti : String → ℕ) (n : ℕ)
    (extractor : List ℤ × ℕ → Mat2) (more : List (List ℤ × ℕ → Mat2)) (L : ℕ)
    (out : List (List ℤ × List ℚ))
    (hidx : ∀ u ∈ utts, lti u.1 < n)
    (hout : utterances_to_features utts lti n (extractor :: more) L = some out) :
    ∀ p ∈ out, ∃ u ∈ utts,
      p.1 ∈ (partition_into_sequences (extractor u.2) L).sequences ∧
      p.2.length = n ∧
      p.2[lti u.1]? = some 1 ∧
      (∀ j, j < n → j ≠ lti u.1 → p.2[j]? = some 0) := by
  intro p hp
  simp only [utterances_to_features, Option.some.injEq] at hout
  rw [← hout] at hp
  simp only [List.mem_flatMap, List.mem_map] at hp
  obtain ⟨u, hu, seq, hseq, hpe⟩ := hp
  have hlt : lti u.1 < n := hidx u hu
  refine ⟨u, hu, ?_, ?_, ?_, ?_⟩
  · rw [← hpe]
    exact hseq
  · rw [← hpe]
    exact makeOnehot_length n (lti u.1)
  · rw [← hpe]
    exact makeOnehot_getElem_self n (lti u.1) hlt
  · intro j hj hne
    rw [← hpe]
    exact makeOnehot_getElem_ne n (lti u.1) j hj hne

theorem utterances_to_features_spec_witness :
    ∃ u ∈ ([("a", (([5] : List ℤ), 1000))] : List Utt),
      ([7] : List ℤ) ∈
        (partition_into_sequences ((fun _ : List ℤ × ℕ => matB) u.2) 1).sequences ∧
      ([1] : List ℚ).length = 1 ∧
      ([1] : List ℚ)[(fun _ : String => 0) u.1]? = some 1 ∧
      (∀ j, j < 1 → j ≠ (fun _ : String => 0) u.1 → ([1] : List ℚ)[j]? = some 0) :=
  utterances_to_features_spec [("a", (([5] : List ℤ), 1000))] (fun _ => 0) 1
    (fun _ => matB) [] 1 [(([7] : List ℤ), ([1] : List ℚ))] (by decide) (by decide)
    (([7] : List ℤ), ([1] : List ℚ)) (by decide)

theorem takeSplit_spec : TrainTestSplitSpec takeSplit := by
  intro l
  show List.Perm (l.take 1 ++ l.drop 1) l
  rw [List.take_append_drop]

/-- Claim C5: assuming the `train_test_split` contract, the three lists
returned by `dataset_split_samples` together are a permutation of the input
samples (every input sample lands in exactly one slot), and for duplicate-free
inputs the three lists are pairwise disjoint. -/
theorem dataset_split_samples_partition {α : Type}
    (tts1 tts2 : List α → List α × List α)
    (h1 : TrainTestSplitSpec tts1) (h2 : TrainTestSplitSpec tts2)
    (samples : List α) :
    List.Perm
      ((dataset_split_samples tts1 tts2 samples).training ++
        (dataset_split_samples tts1 tts2 samples).validation ++
        (dataset_split_samples tts1 tts2 samples).test)
      samples ∧
    (samples.Nodup →
      (dataset_split_samples tts1 tts2 samples).training.Disjoint
        (dataset_split_samples tts1 tts2 samples).validation ∧
      (dataset_split_samples tts1 tts2 samples).training.Disjoint
        (dataset_split_samples tts1 tts2 samples).test ∧
      (dataset_split_samples tts1 tts2 samples).validation.Disjoint
        (dataset_split_samples tts1 tts2 samples).test) := by
  have hp1 := h1 samples
  have hp2 := h2 (tts1 samples).1
  have hperm : List.Perm
      ((dataset_split_samples tts1 tts2 samples).training ++
        (dataset_split_samples tts1 tts2 samples).validation ++
        (dataset_split_samples tts1 tts2 samples).test)
      samples := by
    exact (hp2.append_right (tts1 samples).2).trans hp1
  refine ⟨hperm, fun hnd => ?_⟩
  have hbig := hperm.nodup_iff.mpr hnd
  rw [List.append_assoc, List.nodup_append] at hbig
  obtain ⟨htr, hrest, hdtr⟩ := hbig
  rw [List.nodup_append] at hrest
  obtain ⟨hva, hte, hdva⟩ := hrest
  refine ⟨?_, ?_, hdva⟩
  · intro a ha hb
    exact hdtr ha (List.mem_append_left _ hb)
  · intro a ha hb
    exact hdtr ha (List.mem_append_right _ hb)

theorem dataset_split_samples_partition_witness :
    List.Perm
      ((dataset_split_samples takeSplit takeSplit [0, 1, 2, 3]).training ++
        (dataset_split_samples takeSplit takeSplit [0, 1, 2, 3]).validation ++
        (dataset_split_samples takeSplit takeSplit [0, 1, 2, 3]).test)
      [0, 1, 2, 3] ∧
    (([0, 1, 2, 3] : List ℕ).Nodup →
      (dataset_split_samples takeSplit takeSplit [0, 1, 2, 3]).training.Disjoint
        (dataset_split_samples takeSplit takeSplit [0, 1, 2, 3]).validation ∧
      (dataset_split_samples takeSplit takeSplit [0, 1, 2, 3]).training.Disjoint
        (dataset_split_samples takeSplit takeSplit [0, 1, 2, 3]).test ∧
      (dataset_split_samples takeSplit takeSplit [0, 1, 2, 3]).validation.Disjoint
        (dataset_split_samples takeSplit takeSplit [0, 1, 2, 3]).test) :=
  dataset_split_samples_partition takeSplit takeSplit takeSplit_spec takeSplit_spec
    [0, 1, 2, 3]

/-- Claim C2: assuming the `train_test_split` contract, the three lists
returned by `dataset_split_samples_by_speaker` have pairwise disjoint sets of
speaker ids, and every input sample (its speaker id is always assigned to one
of the three speaker groups) appears in exactly one of the three lists. -/
theorem dataset_split_samples_by_speaker_spec {α σ : Type} [DecidableEq σ]
    (tts1 tts2 : List σ → List σ × List σ) (parse : α → σ) (samples : List α)
    (h1 : TrainTestSplitSpec tts1) (h2 : TrainTestSplitSpec tts2) :
    (∀ x ∈ (dataset_split_samples_by_speaker tts1 tts2 parse samples).training,
      ∀ y ∈ (dataset_split_samples_by_speaker tts1 tts2 parse samples).validation,
        parse x ≠ parse y) ∧
    (∀ x ∈ (dataset_split_samples_by_speaker tts1 tts2 parse samples).training,
      ∀ y ∈ (dataset_split_samples_by_speaker tts1 tts2 parse samples).test,
        parse x ≠ parse y) ∧
    (∀ x ∈ (dataset_split_samples_by_speaker tts1 tts2 parse samples).validation,
      ∀ y ∈ (dataset_split_samples_by_speaker tts1 tts2 parse samples).test,
        parse x ≠ parse y) ∧
    (∀ s ∈ samples,
      (s ∈ (dataset_split_samples_by_speaker tts1 tts2 parse samples).training ∧
        s ∉ (dataset_split_samples_by_speaker tts1 tts2 parse samples).validation ∧
        s ∉ (dataset_split_samples_by_speaker tts1 tts2 parse samples).test) ∨
      (s ∉ (dataset_split_samples_by_speaker tts1 tts2 parse samples).training ∧
        s ∈ (dataset_split_samples_by_speaker tts1 tts2 parse samples).validation ∧
        s ∉ (dataset_split_samples_by_speaker tts1 tts2 parse samples).test) ∨
      (s ∉ (dataset_split_samples_by_speaker tts1 tts2 parse samples).training ∧
        s ∉ (dataset_split_samples_by_speaker tts1 tts2 parse samples).validation ∧
        s ∈ (dataset_split_samples_by_speaker tts1 tts2 parse samples).test)) := by
  have hp1 := h1 ((samples.map parse).dedup)
  have hp2 := h2 (tts1 ((samples.map parse).dedup)).1
  have hnds : ((samples.map parse).dedup).Nodup := List.nodup_dedup _
  have hnd1 := hp1.nodup_iff.mpr hnds
  rw [List.nodup_append] at hnd1
  obtain ⟨hnd11, hnd12, hdisj1⟩ := hnd1
  have hnd2 := hp2.nodup_iff.mpr hnd11
  rw [List.nodup_append] at hnd2
  obtain ⟨hnd21, hnd22, hdisj2⟩ := hnd2
  have hsub21 : ∀ z ∈ (tts2 (tts1 ((samples.map parse).dedup)).1).1,
      z ∈ (tts1 ((samples.map parse).dedup)).1 :=
    fun z hz => hp2.subset (List.mem_append_left _ hz)
  have hsub22 : ∀ z ∈ (tts2 (tts1 ((samples.map parse).dedup)).1).2,
      z ∈ (tts1 ((samples.map parse).dedup)).1 :=
    fun z hz => hp2.subset (List.mem_append_right _ hz)
  have hmemT : ∀ x,
      x ∈ (dataset_split_samples_by_speaker tts1 tts2 parse samples).training ↔
        (x ∈ samples ∧ parse x ∈ (tts2 (tts1 ((samples.map parse).dedup)).1).1) := by
    intro x
    simp [dataset_split_samples_by_speaker, List.mem_filter]
  have hmemV : ∀ x,
      x ∈ (dataset_split_samples_by_speaker tts1 tts2 parse samples).validation ↔
        (x ∈ samples ∧ parse x ∈ (tts2 (tts1 ((samples.map parse).dedup)).1).2) := by
    intro x
    simp [dataset_split_samples_by_speaker, List.mem_filter]
  have hmemTe : ∀ x,
      x ∈ (dataset_split_samples_by_speaker tts1 tts2 parse samples).test ↔
        (x ∈ samples ∧ parse x ∈ (tts1 ((samples.map parse).dedup)).2) := by
    intro x
    simp [dataset_split_samples_by_speaker, List.mem_filter]
  refine ⟨?_, ?_, ?_, ?_⟩
  · intro x hx y hy heq
    have hxT := (hmemT x).mp hx
    have hyV := (hmemV y).mp hy
    rw [← heq] at hyV
    exact hdisj2 hxT.2 hyV.2
  · intro x hx y hy heq
    have hxT := (hmemT x).mp hx
    have hyTe := (hmemTe y).mp hy
    rw [← heq] at hyTe
    exact hdisj1 (hsub21 _ hxT.2) hyTe.2
  · intro x hx y hy heq
    have hxV := (hmemV x).mp hx
    have hyTe := (hmemTe y).mp hy
    rw [← heq] at hyTe
    exact hdisj1 (hsub22 _ hxV.2) hyTe.2
  · intro s hs
    have hid : parse s ∈ (samples.map parse).dedup := by
      rw [List.mem_dedup]
      exact List.mem_map_of_mem parse hs
    have hin := hp1.symm.subset hid
    rw [List.mem_append] at hin
    rcases hin with h11 | h12
    · have hin2 := hp2.symm.subset h11
      rw [List.mem_append] at hin2
      rcases hin2 with h21 | h22
      · left
        refine ⟨(hmemT s).mpr ⟨hs, h21⟩, ?_, ?_⟩
        · intro hv
          exact hdisj2 h21 ((hmemV s).mp hv).2
        · intro ht
          exact hdisj1 (hsub21 _ h21) ((hmemTe s).mp ht).2
      · right
        left
        refine ⟨?_, (hmemV s).mpr ⟨hs, h22⟩, ?_⟩
        · intro htr
          exact hdisj2 ((hmemT s).mp htr).2 h22
        · intro ht
          exact hdisj1 (hsub22 _ h22) ((hmemTe s).mp ht).2
    · right
      right
      refine ⟨?_, ?_, (hmemTe s).mpr ⟨hs, h12⟩⟩
      · intro htr
        exact hdisj1 (hsub21 _ ((hmemT s).mp htr).2) h12
      · intro hv
        exact hdisj1 (hsub22 _ ((hmemV s).mp hv).2) h12

theorem dataset_split_samples_by_speaker_spec_witness :
    (∀ x ∈ (dataset_split_samples_by_speaker takeSplit takeSplit
        (fun z : ℕ => z) [0, 1, 2]).training,
      ∀ y ∈ (dataset_split_samples_by_speaker takeSplit takeSplit
          (fun z : ℕ => z) [0, 1, 2]).validation,
        (fun z : ℕ => z) x ≠ (fun z : ℕ => z) y) ∧
    (∀ x ∈ (dataset_split_samples_by_speaker takeSplit takeSplit
        (fun z : ℕ => z) [0, 1, 2]).training,
      ∀ y ∈ (dataset_split_samples_by_speaker takeSplit takeSplit
          (fun z : ℕ => z) [0, 1, 2]).test,
        (fun z : ℕ => z) x ≠ (fun z : ℕ => z) y) ∧
    (∀ x ∈ (dataset_split_samples_by_speaker takeSplit takeSplit
        (fun z : ℕ => z) [0, 1, 2]).validation,
      ∀ y ∈ (dataset_split_samples_by_speaker takeSplit takeSplit
          (fun z : ℕ => z) [0, 1, 2]).test,
        (fun z : ℕ => z) x ≠ (fun z : ℕ => z) y) ∧
    (∀ s ∈ ([0, 1, 2] : List ℕ),
      (s ∈ (dataset_split_samples_by_speaker takeSplit takeSplit
          (fun z : ℕ => z) [0, 1, 2]).training ∧
        s ∉ (dataset_split_samples_by_speaker takeSplit takeSplit
          (fun z : ℕ => z) [0, 1, 2]).validation ∧
        s ∉ (dataset_split_samples_by_speaker takeSplit takeSplit
          (fun z : ℕ => z) [0, 1, 2]).test) ∨
      (s ∉ (dataset_split_samples_by_speaker takeSplit takeSplit
          (fun z : ℕ => z) [0, 1, 2]).training ∧
        s ∈ (dataset_split_samples_by_speaker takeSplit takeSplit
          (fun z : ℕ => z) [0, 1, 2]).validation ∧
        s ∉ (dataset_split_samples_by_speaker takeSplit takeSplit
          (fun z : ℕ => z) [0, 1, 2]).test) ∨
      (s ∉ (dataset_split_samples_by_speaker takeSplit takeSplit
          (fun z : ℕ => z) [0, 1, 2]).training ∧
        s ∉ (dataset_split_samples_by_speaker takeSplit takeSplit
          (fun z : ℕ => z) [0, 1, 2]).validation ∧
        s ∈ (dataset_split_samples_by_speaker takeSplit takeSplit
          (fun z : ℕ => z) [0, 1, 2]).test)) :=
  dataset_split_samples_by_speaker_spec takeSplit takeSplit (fun z : ℕ => z)
    [0, 1, 2] takeSplit_spec takeSplit_spec
